import Mathlib

/-!
Shallow embedding of the session-lifecycle core of the `neovide` bridge
(`src/bridge/mod.rs`, `src/running_tracker.rs`).

The asynchronous functions of the source are modelled as pure functions that
take the outcomes of their environment interactions (connection attempts, RPC
responses, select-arm choices) as explicit inputs and return, besides their
result, a trace of the observable actions they perform (RPC calls, sleeps,
emitted user events, task aborts).  Loops that can run unboundedly take a fuel
parameter.
-/

namespace Neovide

/-- Semantic version triple returned by the backend during the handshake. -/
structure Version where
  major : Nat
  minor : Nat
  patch : Nat
deriving DecidableEq, Repr

/-- Modelled from the spec: `Version::has_version` lives in `src/bridge/api_info.rs`,
which is not under `src/`; the spec requires that a version is accepted iff
`(major, minor, patch) >= (required major, minor, patch)` compared
lexicographically by major, then minor, then patch. -/
def Version.has_version (v : Version) (major minor patch : Nat) : Bool :=
  decide (major < v.major ∨
    (major = v.major ∧ (minor < v.minor ∨ (minor = v.minor ∧ patch ≤ v.patch))))

/-- Result of the handshake: channel identifier and backend version
(`ApiInformation` from `src/bridge/api_info.rs`). -/
structure ApiInformation where
  channel : Nat
  version : Version
deriving DecidableEq, Repr

/-- Outcome of one `get_api_information` request: a decoded response or a
call-level error. -/
abbrev ApiResult := Except Unit ApiInformation

/-- The variants of `NeovimInstance` (`src/bridge/session.rs`) that matter here:
an embedded child process or a remote server address. -/
inductive Instance where
  | embedded
  | server (address : String)
deriving DecidableEq, Repr

/-- The `UserEvent` variants sent through the winit event-loop proxy by the
bridge code under `src/`. -/
inductive UserEvent where
  | reconnectStart (address : String) (wait : Nat)
  | reconnectStop
  | redrawRequested
  | neovimExited
deriving DecidableEq, Repr

/-- Observable actions performed by the bridge functions, in program order.
Durations are in the unit indicated by the constructor name. -/
inductive Action where
  | sessionCreate (inst : Instance)
  | apiInfoRequest
  | sleepMs (ms : Nat)
  | setupState (clipboard : Bool)
  | readInitialValues
  | uiAttach (width height : Nat) (linegrid multigrid rgb : Bool)
  | startUiCommandHandler
  | sendEvent (e : UserEvent)
  | sleepSecs (secs : Nat)
  | ioWaitMs (ms : Nat)
  | stderrWaitMs (ms : Nat)
  | pingRequest (timeoutMs : Nat)
  | abortIoTask
  | clearCurrentNvim
deriving DecidableEq, Repr

/-- The command-line settings consumed by the bridge: `server`, `wsl`,
`no_multi_grid`. -/
structure CmdLineSettings where
  server : Option String
  wsl : Bool
  no_multi_grid : Bool
deriving DecidableEq, Repr

/-- Grid size in columns × rows (`GridSize<u32>` from `src/units.rs`). -/
structure GridSize where
  width : Nat
  height : Nat
deriving DecidableEq, Repr

/-- Modelled from the spec: the default grid size used when the caller supplies
none (`DEFAULT_GRID_SIZE`, defined in the settings module, not under `src/`). -/
def DEFAULT_GRID_SIZE : GridSize := ⟨100, 50⟩

/-- Modelled from the spec: the implementation-defined minimum grid size used
for clamping (settings module, not under `src/`). -/
def MIN_GRID_SIZE : GridSize := ⟨20, 6⟩

/-- Modelled from the spec: the implementation-defined maximum grid size used
for clamping (settings module, not under `src/`). -/
def MAX_GRID_SIZE : GridSize := ⟨10000, 1000⟩

/-- Modelled from the spec: `clamped_grid_size` (settings module, not under
`src/`) clamps a requested grid size componentwise to the
minimum/maximum bounds. -/
def clamped_grid_size (g : GridSize) : GridSize :=
  ⟨min (max g.width MIN_GRID_SIZE.width) MAX_GRID_SIZE.width,
   min (max g.height MIN_GRID_SIZE.height) MAX_GRID_SIZE.height⟩

/-- `NEOVIM_REQUIRED_VERSION` from `src/bridge/mod.rs`. -/
def NEOVIM_REQUIRED_VERSION : String := "0.10.0"

/-- The error message produced when the version check exhausts its attempts
(`anyhow!("Neovide requires nvim version {NEOVIM_REQUIRED_VERSION} or higher")`). -/
def versionErrorMessage : String :=
  "Neovide requires nvim version " ++ NEOVIM_REQUIRED_VERSION ++ " or higher"

/-- Does this `get_api_information` outcome satisfy the guard
`Ok(info) if info.version.has_version(0, 10, 0)` of `check_neovim_version`? -/
def acceptable (r : ApiResult) : Bool :=
  match r with
  | .ok info => info.version.has_version 0 10 0
  | .error _ => false

/-- The `for attempt in 0..5` loop of `check_neovim_version`
(`src/bridge/mod.rs`): `attempt` is the index of the next attempt, the second
argument the number of attempts left.  An acceptable response returns
immediately; any other outcome is followed by a 500 ms sleep. -/
def checkAttempts (responses : Nat → ApiResult) :
    Nat → Nat → Except String ApiInformation × List Action
  | _, 0 => (.error versionErrorMessage, [])
  | attempt, rem + 1 =>
    match responses attempt with
    | .ok info =>
      if info.version.has_version 0 10 0 then
        (.ok info, [.apiInfoRequest])
      else
        let r := checkAttempts responses (attempt + 1) rem
        (r.1, .apiInfoRequest :: .sleepMs 500 :: r.2)
    | .error _ =>
      let r := checkAttempts responses (attempt + 1) rem
      (r.1, .apiInfoRequest :: .sleepMs 500 :: r.2)

/-- `check_neovim_version` from `src/bridge/mod.rs`: up to 5 attempts starting
at attempt 0. -/
def check_neovim_version (responses : Nat → ApiResult) :
    Except String ApiInformation × List Action :=
  checkAttempts responses 0 5

/-- `neovim_instance` from `src/bridge/mod.rs`: server address if configured,
otherwise an embedded command. -/
def neovim_instance (cfg : CmdLineSettings) : Instance :=
  match cfg.server with
  | some address => .server address
  | none => .embedded

/-- The parts of a `NeovimSession` the supervisor observes: whether a child
process handle is present (embedded only) and whether a stderr-relay task was
spawned. -/
structure Session where
  hasProcess : Bool
  hasStderrTask : Bool
deriving DecidableEq, Repr

/-- Outcomes of the environment interactions of one `launch` attempt:
session creation, the per-attempt version responses, and the results of the
setup, settings-sync and UI-attach calls. -/
structure LaunchEnv where
  sessionOk : Bool
  stderrTask : Bool
  responses : Nat → ApiResult
  setupOk : Bool
  settingsReadOk : Bool
  attachOk : Bool

/-- `launch` from `src/bridge/mod.rs`: resolve the instance, create the
session, check the version, run Neovide-specific setup, push initial settings,
then issue the single `ui_attach` call with the clamped (or default) grid size
and the fixed option set. -/
def launch (env : LaunchEnv) (grid_size : Option GridSize) (cfg : CmdLineSettings) :
    Except String Session × List Action :=
  let inst := neovim_instance cfg
  if !env.sessionOk then
    (.error "Could not locate or start neovim process", [.sessionCreate inst])
  else
    let vc := check_neovim_version env.responses
    let t0 := .sessionCreate inst :: vc.2
    match vc.1 with
    | .error msg => (.error msg, t0)
    | .ok _ =>
      let clip := cfg.wsl || cfg.server.isSome
      let t1 := t0 ++ [.setupState clip]
      if !env.setupOk then
        -- Modelled from the spec: the error value of `setup_neovide_specific_state`
        -- (`src/bridge/setup.rs` is not under `src/`); only fatality matters here.
        (.error "SetupError", t1)
      else
        let t2 := t1 ++ [.readInitialValues]
        if !env.settingsReadOk then
          -- Modelled from the spec: the error value of `read_initial_values`
          -- (settings module, not under `src/`); only fatality matters here.
          (.error "SettingsSyncError", t2)
        else
          let g := grid_size.elim DEFAULT_GRID_SIZE clamped_grid_size
          let t3 := t2 ++ [.uiAttach g.width g.height true (!cfg.no_multi_grid) true]
          if env.attachOk then
            (.ok { hasProcess := cfg.server.isNone, hasStderrTask := env.stderrTask }, t3)
          else
            (.error "Could not attach ui to neovim process", t3)

/-- Which of the raced waits of the embedded supervisor `run` finishes first:
the IO task, or the child process (in the latter case, whether the IO task then
finished within the extra 500 ms wait). -/
inductive EmbeddedTerminal where
  | ioClosed
  | processExited (ioClosedWithin : Bool)
deriving DecidableEq, Repr

/-- `run` from `src/bridge/mod.rs` (embedded, run-once supervision): race IO
completion against process exit (with a bounded 500 ms extra IO wait), drain
the stderr task for at most 500 ms if present, clear the current-connection
reference and emit `NeovimExited`. -/
def run (session : Session) (terminal : EmbeddedTerminal) : List Action :=
  (if session.hasProcess then
    match terminal with
    | .ioClosed => []
    | .processExited _ => [.ioWaitMs 500]
  else []) ++
  (if session.hasStderrTask then [.stderrWaitMs 500] else []) ++
  [.clearCurrentNvim, .sendEvent .neovimExited]

/-- Which arm of the `select!` in `run_server` fires next: the IO task
completed, or the ping interval ticked (with the ping finishing inside its
2 s timeout, or not). -/
inductive ServerEvent where
  | ioClosed
  | pingOk
  | pingTimeout
deriving DecidableEq, Repr

/-- The `loop { select! { ... } }` of `run_server` (`src/bridge/mod.rs`).
Returns the actions of the loop body and whether the loop broke out (reached
`break` via IO completion).  An exhausted script with no IO completion leaves
the loop still pending, modelled by the `false` flag. -/
def runServerLoop : List ServerEvent → List Action × Bool
  | [] => ([], false)
  | .ioClosed :: _ => ([], true)
  | .pingOk :: rest =>
    let r := runServerLoop rest
    (.pingRequest 2000 :: r.1, r.2)
  | .pingTimeout :: rest =>
    let r := runServerLoop rest
    (.pingRequest 2000 :: .abortIoTask :: r.1, r.2)

/-- `run_server` from `src/bridge/mod.rs`: the liveness sub-loop followed (once
the loop breaks) by the stderr drain, clearing the current-connection
reference, and the `NeovimExited` event. -/
def run_server (script : List ServerEvent) (session : Session) : List Action × Bool :=
  let l := runServerLoop script
  if l.2 then
    (l.1 ++ (if session.hasStderrTask then [.stderrWaitMs 500] else []) ++
       [.clearCurrentNvim, .sendEvent .neovimExited], true)
  else
    (l.1, false)

/-- How the reconnect loop ended within the given fuel. -/
inductive ReconnectExit where
  | quit
  | connected
  | fuelOut
deriving DecidableEq, Repr

/-- One iteration state of `run_with_reconnect` (`src/bridge/mod.rs`): `n` is
the iteration index (used to consult the per-iteration quit flag and launch
environment), `wait` the current backoff in seconds.  Each iteration checks
`quit_requested`, attempts `launch`, and on failure emits
`ReconnectStart`/`RedrawRequested`, sleeps `wait`, and doubles `wait` only when
it is below 30 s.  On success it starts the UI command handler, emits
`ReconnectStop`/`RedrawRequested` and enters `run_server`. -/
def reconnectGo (envs : Nat → LaunchEnv) (quitAt : Nat → Bool)
    (script : List ServerEvent) (grid : Option GridSize) (cfg : CmdLineSettings)
    (address : String) : Nat → Nat → Nat → List Action × ReconnectExit
  | 0, _, _ => ([], .fuelOut)
  | fuel + 1, n, wait =>
    if quitAt n then
      ([], .quit)
    else
      let l := launch (envs n) grid cfg
      match l.1 with
      | .ok session =>
        (l.2 ++ [.startUiCommandHandler, .sendEvent .reconnectStop,
           .sendEvent .redrawRequested] ++ (run_server script session).1, .connected)
      | .error _ =>
        let nextWait := if wait < 30 then wait * 2 else wait
        let r := reconnectGo envs quitAt script grid cfg address fuel (n + 1) nextWait
        (l.2 ++ [.sendEvent (.reconnectStart address wait), .sendEvent .redrawRequested,
           .sleepSecs wait] ++ r.1, r.2)

/-- `run_with_reconnect` from `src/bridge/mod.rs`: address from the settings
(`unwrap_or_default`), initial backoff 1 s, iteration 0. -/
def run_with_reconnect (envs : Nat → LaunchEnv) (quitAt : Nat → Bool)
    (script : List ServerEvent) (grid : Option GridSize) (cfg : CmdLineSettings)
    (fuel : Nat) : List Action × ReconnectExit :=
  reconnectGo envs quitAt script grid cfg (cfg.server.getD "") fuel 0 1

/-- What `NeovimRuntime::launch` leaves running in the background. -/
inductive BackgroundTask where
  | reconnectLoop
  | runOnce (session : Session)
deriving DecidableEq, Repr

/-- The observable outcome of `NeovimRuntime::launch`: its return value, the
actions it performed inline (before returning to the caller), and the task it
spawned into the background. -/
structure RuntimeLaunchResult where
  result : Except String Unit
  inlineActions : List Action
  background : Option BackgroundTask
deriving Repr

/-- `NeovimRuntime::launch` from `src/bridge/mod.rs`: with a server address
configured it spawns `run_with_reconnect` in the background and returns `Ok`
immediately; otherwise it blocks on the first `launch` inline, propagates its
error, and spawns `run` for the surviving session. -/
def NeovimRuntime.launch (env : LaunchEnv) (grid : Option GridSize)
    (cfg : CmdLineSettings) : RuntimeLaunchResult :=
  if cfg.server.isSome then
    { result := .ok (), inlineActions := [], background := some .reconnectLoop }
  else
    let l := Neovide.launch env grid cfg
    match l.1 with
    | .error msg => { result := .error msg, inlineActions := l.2, background := none }
    | .ok session =>
      { result := .ok (), inlineActions := l.2, background := some (.runOnce session) }

/-- `RunningTracker` from `src/running_tracker.rs`.  All clones share the two
atomics behind an `Arc`, so operations are modelled directly on the shared
state.  The exit code is a `u8`, represented as a natural below 256. -/
structure RunningTracker where
  exit_code : Nat
  quitting : Bool
deriving DecidableEq, Repr

/-- `RunningTracker::new`. -/
def RunningTracker.new : RunningTracker := ⟨0, false⟩

/-- `RunningTracker::request_quit`. -/
def RunningTracker.request_quit (t : RunningTracker) : RunningTracker :=
  { t with quitting := true }

/-- `RunningTracker::quit_with_code`: store the code, then request quit. -/
def RunningTracker.quit_with_code (t : RunningTracker) (code : Nat) : RunningTracker :=
  RunningTracker.request_quit { t with exit_code := code % 256 }

/-- `RunningTracker::quit_requested`. -/
def RunningTracker.quit_requested (t : RunningTracker) : Bool := t.quitting

/-- The mutating operations any clone of the tracker may perform. -/
inductive TrackerOp where
  | requestQuit
  | quitWithCode (code : Nat)
deriving DecidableEq, Repr

/-- Apply one tracker operation to the shared state. -/
def applyOp (t : RunningTracker) : TrackerOp → RunningTracker
  | .requestQuit => t.request_quit
  | .quitWithCode c => t.quit_with_code c

/-- Apply a sequence of tracker operations (from any clones, in some
interleaving order) to the shared state. -/
def applyOps (t : RunningTracker) (ops : List TrackerOp) : RunningTracker :=
  ops.foldl applyOp t

/-- The sleep durations (in seconds) of a trace, in order. -/
def sleepsOf (t : List Action) : List Nat :=
  t.filterMap fun a =>
    match a with
    | .sleepSecs s => some s
    | _ => none

/-- The reconnect-indicator events of a trace (`ReconnectStart` and
`ReconnectStop`), in order. -/
def reconnectEvents (t : List Action) : List UserEvent :=
  t.filterMap fun a =>
    match a with
    | .sendEvent (.reconnectStart addr w) => some (.reconnectStart addr w)
    | .sendEvent .reconnectStop => some .reconnectStop
    | _ => none

/-- Is this action a `ui_attach` call? -/
def isUiAttach : Action → Bool
  | .uiAttach _ _ _ _ _ => true
  | _ => false

/-- Is this `Except` an `ok`? -/
def isOkResult {ε α : Type} : Except ε α → Bool
  | .ok _ => true
  | .error _ => false

/-- The backoff update applied after each failed attempt:
`if wait < Duration::from_secs(30) { wait *= 2 }`. -/
def nextWait (w : Nat) : Nat := if w < 30 then w * 2 else w

/-- A launch environment in which session creation (spawn/connect) fails
immediately. -/
def failEnv : LaunchEnv :=
  { sessionOk := false, stderrTask := false, responses := fun _ => .error (),
    setupOk := true, settingsReadOk := true, attachOk := true }

/-- A launch environment in which every step succeeds and the backend reports
version 0.10.0 on the first attempt. -/
def goodEnv : LaunchEnv :=
  { sessionOk := true, stderrTask := false,
    responses := fun _ => .ok ⟨1, ⟨0, 10, 0⟩⟩,
    setupOk := true, settingsReadOk := true, attachOk := true }

/-- Settings for a server-mode connection to `127.0.0.1:6666`. -/
def serverCfg : CmdLineSettings :=
  { server := some "127.0.0.1:6666", wsl := false, no_multi_grid := false }

/-- Settings for an embedded (no server) session. -/
def embeddedCfg : CmdLineSettings :=
  { server := none, wsl := false, no_multi_grid := false }

/-- Environments for the reconnect scenario of the spec: the server refuses the
connection three times, then accepts. -/
def scenarioEnvs (n : Nat) : LaunchEnv := if n < 3 then failEnv else goodEnv

/-- A launch environment whose backend reports version 0.9.9 on every
attempt. -/
def badVersionEnv : LaunchEnv :=
  { sessionOk := true, stderrTask := false,
    responses := fun _ => .ok ⟨1, ⟨0, 9, 9⟩⟩,
    setupOk := true, settingsReadOk := true, attachOk := true }

/-- The trace left by `n` consecutive unacceptable version-check attempts: each
attempt is one capability-info request followed by a 500 ms sleep. -/
def failCheckTrace : Nat → List Action
  | 0 => []
  | n + 1 => Action.apiInfoRequest :: Action.sleepMs 500 :: failCheckTrace n

end Neovide

namespace Neovide

/-! ### Helper lemmas -/

theorem applyOp_quitting (t : RunningTracker) (op : TrackerOp) :
    (applyOp t op).quitting = true := by
  cases op <;>
    simp [applyOp, RunningTracker.request_quit, RunningTracker.quit_with_code]

theorem applyOps_quitting_mono (ops : List TrackerOp) :
    ∀ t : RunningTracker, t.quitting = true → (applyOps t ops).quitting = true := by
  induction ops with
  | nil => intro t h; simpa [applyOps] using h
  | cons op rest ih =>
    intro t h
    have : (applyOp t op).quitting = true := applyOp_quitting t op
    simpa [applyOps] using ih (applyOp t op) this

theorem applyOps_quitting_of_ne_nil (t : RunningTracker) (ops : List TrackerOp)
    (h : ops ≠ []) : (applyOps t ops).quitting = true := by
  cases ops with
  | nil => exact absurd rfl h
  | cons op rest =>
    have h1 : (applyOp t op).quitting = true := applyOp_quitting t op
    simpa [applyOps] using applyOps_quitting_mono rest (applyOp t op) h1

theorem sleepsOf_append (a b : List Action) :
    sleepsOf (a ++ b) = sleepsOf a ++ sleepsOf b := by
  simp [sleepsOf]

theorem checkAttempts_mem (rem : Nat) :
    ∀ (attempt : Nat) (r : Nat → ApiResult) (a : Action),
      a ∈ (checkAttempts r attempt rem).2 →
      a = Action.apiInfoRequest ∨ a = Action.sleepMs 500 := by
  induction rem with
  | zero => intro attempt r a h; simp [checkAttempts] at h
  | succ m ih =>
    intro attempt r a h
    unfold checkAttempts at h
    cases hr : r attempt with
    | ok info =>
      rw [hr] at h
      by_cases hv : info.version.has_version 0 10 0
      · simp [hv] at h
        exact Or.inl h
      · simp [hv] at h
        rcases h with h | h | h
        · exact Or.inl h
        · exact Or.inr h
        · exact ih (attempt + 1) r a h
    | error e =>
      rw [hr] at h
      simp at h
      rcases h with h | h | h
      · exact Or.inl h
      · exact Or.inr h
      · exact ih (attempt + 1) r a h

theorem sleepsOf_checkAttempts (rem attempt : Nat) (r : Nat → ApiResult) :
    sleepsOf (checkAttempts r attempt rem).2 = [] := by
  rw [sleepsOf, List.filterMap_eq_nil_iff]
  intro a ha
  rcases checkAttempts_mem rem attempt r a ha with h | h <;> subst h <;> rfl

theorem sleepsOf_launch (env : LaunchEnv) (grid : Option GridSize)
    (cfg : CmdLineSettings) : sleepsOf (launch env grid cfg).2 = [] := by
  have hmem : ∀ a ∈ (check_neovim_version env.responses).2,
      (match a with | Action.sleepSecs s => some s | _ => none) = (none : Option Nat) := by
    intro a ha
    rcases checkAttempts_mem 5 0 env.responses a ha with h | h <;> subst h <;> rfl
  unfold launch
  by_cases hs : env.sessionOk
  · simp only [hs]
    cases hvc : (check_neovim_version env.responses).1 with
    | error msg =>
      simp only [Bool.not_true, hvc]
      simpa [sleepsOf] using sleepsOf_checkAttempts 5 0 env.responses
    | ok info =>
      by_cases h1 : env.setupOk <;> by_cases h2 : env.settingsReadOk <;>
        by_cases h3 : env.attachOk <;>
        simp [hvc, h1, h2, h3, sleepsOf, List.filterMap_eq_nil_iff] <;>
        exact hmem
  · simp [hs, sleepsOf]

theorem reconnectGo_sleeps (envs : Nat → LaunchEnv) (quitAt : Nat → Bool)
    (script : List ServerEvent) (grid : Option GridSize) (cfg : CmdLineSettings)
    (address : String) (hq : ∀ k, quitAt k = false)
    (hf : ∀ k, isOkResult (launch (envs k) grid cfg).1 = false) :
    ∀ (fuel n w : Nat),
      sleepsOf (reconnectGo envs quitAt script grid cfg address fuel n w).1 =
        (List.range fuel).map (fun i => nextWait^[i] w) := by
  intro fuel
  induction fuel with
  | zero => intro n w; simp [reconnectGo, sleepsOf]
  | succ m ih =>
    intro n w
    unfold reconnectGo
    rw [hq n]
    simp only [Bool.false_eq_true, if_false]
    cases hl : (launch (envs n) grid cfg).1 with
    | ok s => have := hf n; rw [hl] at this; simp [isOkResult] at this
    | error e =>
      simp only
      rw [sleepsOf_append, sleepsOf_append, sleepsOf_launch]
      rw [ih (n + 1) (if w < 30 then w * 2 else w)]
      have hrange : List.range (m + 1) = 0 :: (List.range m).map (· + 1) :=
        List.range_succ_eq_map m
      rw [hrange]
      simp [sleepsOf, List.map_map, Function.comp_def, Function.iterate_succ_apply,
        nextWait]

theorem iterate_nextWait_one : ∀ i : Nat, nextWait^[i] 1 = min (2 ^ i) 32 := by
  intro i
  induction i with
  | zero => simp
  | succ m ih =>
    rw [Function.iterate_succ_apply', ih]
    by_cases hm : m < 5
    · have h16 : 2 ^ m ≤ 16 := by
        calc 2 ^ m ≤ 2 ^ 4 := Nat.pow_le_pow_right (by norm_num) (by omega)
        _ = 16 := by norm_num
      have hmin : min (2 ^ m) 32 = 2 ^ m := min_eq_left (by omega)
      have hlt : 2 ^ m < 30 := by omega
      have h2 : 2 ^ (m + 1) ≤ 32 := by
        calc 2 ^ (m + 1) ≤ 2 ^ 5 := Nat.pow_le_pow_right (by norm_num) (by omega)
        _ = 32 := by norm_num
      rw [hmin, nextWait, if_pos hlt, min_eq_left h2, pow_succ, Nat.mul_comm]
    · have h32 : 32 ≤ 2 ^ m := by
        calc (32 : Nat) = 2 ^ 5 := by norm_num
        _ ≤ 2 ^ m := Nat.pow_le_pow_right (by norm_num) (by omega)
      have h32' : 32 ≤ 2 ^ (m + 1) := le_trans h32 (Nat.pow_le_pow_right (by norm_num) (by omega))
      rw [min_eq_right h32, nextWait, if_neg (by omega), min_eq_right h32']

theorem failCheckTrace_mem (n : Nat) :
    ∀ a ∈ failCheckTrace n, a = Action.apiInfoRequest ∨ a = Action.sleepMs 500 := by
  induction n with
  | zero => intro a ha; simp [failCheckTrace] at ha
  | succ m ih =>
    intro a ha
    simp only [failCheckTrace, List.mem_cons] at ha
    rcases ha with rfl | rfl | ha
    · exact Or.inl rfl
    · exact Or.inr rfl
    · exact ih a ha

theorem checkAttempts_all_fail (rem : Nat) :
    ∀ (attempt : Nat) (r : Nat → ApiResult),
      (∀ j, j < rem → acceptable (r (attempt + j)) = false) →
      checkAttempts r attempt rem = (.error versionErrorMessage, failCheckTrace rem) := by
  induction rem with
  | zero => intro attempt r _; simp [checkAttempts, failCheckTrace]
  | succ m ih =>
    intro attempt r h
    have h0 : acceptable (r attempt) = false := by simpa using h 0 (by omega)
    have hrest : ∀ j, j < m → acceptable (r (attempt + 1 + j)) = false := by
      intro j hj
      have := h (j + 1) (by omega)
      simpa [Nat.add_assoc, Nat.add_comm 1 j] using this
    have ihr := ih (attempt + 1) r hrest
    unfold checkAttempts
    cases hr : r attempt with
    | ok info =>
      have hv : info.version.has_version 0 10 0 = false := by
        rw [hr] at h0; simpa [acceptable] using h0
      simp [hv, ihr, failCheckTrace]
    | error e =>
      simp [ihr, failCheckTrace]

theorem checkAttempts_first_ok :
    ∀ (k rem attempt : Nat) (r : Nat → ApiResult),
      k < rem → acceptable (r (attempt + k)) = true →
      (∀ j, j < k → acceptable (r (attempt + j)) = false) →
      ∃ info, r (attempt + k) = .ok info ∧ info.version.has_version 0 10 0 = true ∧
        checkAttempts r attempt rem =
          (.ok info, failCheckTrace k ++ [Action.apiInfoRequest]) := by
  intro k
  induction k with
  | zero =>
    intro rem attempt r hk hacc _
    obtain ⟨m, rfl⟩ : ∃ m, rem = m + 1 := ⟨rem - 1, by omega⟩
    rw [Nat.add_zero] at hacc
    cases hr : r attempt with
    | error e => rw [hr] at hacc; simp [acceptable] at hacc
    | ok info =>
      have hv : info.version.has_version 0 10 0 = true := by
        rw [hr] at hacc; simpa [acceptable] using hacc
      refine ⟨info, by simpa using hr, hv, ?_⟩
      unfold checkAttempts
      simp [hr, hv, failCheckTrace]
  | succ kk ih =>
    intro rem attempt r hk hacc hbefore
    obtain ⟨m, rfl⟩ : ∃ m, rem = m + 1 := ⟨rem - 1, by omega⟩
    have h0 : acceptable (r attempt) = false := by simpa using hbefore 0 (by omega)
    have hacc' : acceptable (r (attempt + 1 + kk)) = true := by
      have : attempt + 1 + kk = attempt + (kk + 1) := by omega
      rw [this]; exact hacc
    have hbefore' : ∀ j, j < kk → acceptable (r (attempt + 1 + j)) = false := by
      intro j hj
      have : attempt + 1 + j = attempt + (j + 1) := by omega
      rw [this]; exact hbefore (j + 1) (by omega)
    obtain ⟨info, hinfo, hv, hrec⟩ := ih m (attempt + 1) r (by omega) hacc' hbefore'
    have heq : attempt + 1 + kk = attempt + (kk + 1) := by omega
    refine ⟨info, by rw [← heq]; exact hinfo, hv, ?_⟩
    unfold checkAttempts
    cases hr : r attempt with
    | ok i0 =>
      have hv0 : i0.version.has_version 0 10 0 = false := by
        rw [hr] at h0; simpa [acceptable] using h0
      simp [hv0, hrec, failCheckTrace]
    | error e =>
      simp [hrec, failCheckTrace]

theorem checkAttempts_count (rem : Nat) :
    ∀ (attempt : Nat) (r : Nat → ApiResult),
      (checkAttempts r attempt rem).2.count Action.apiInfoRequest ≤ rem := by
  induction rem with
  | zero => intro attempt r; simp [checkAttempts]
  | succ m ih =>
    intro attempt r
    unfold checkAttempts
    cases hr : r attempt with
    | ok info =>
      by_cases hv : info.version.has_version 0 10 0
      · simp [hv, List.count_cons]
      · have := ih (attempt + 1) r
        simp only [Bool.not_eq_true] at hv
        simp [hv, List.count_cons]
        omega
    | error e =>
      have := ih (attempt + 1) r
      simp [List.count_cons]
      omega

end Neovide


namespace Neovide

/-! ### Claim theorems -/

/-- Claim C1, counterexample: with the connection failing on every attempt and
no quit requested, the first six backoff sleeps of the reconnect loop are
1, 2, 4, 8, 16, 32 seconds — the sixth sleep is 32 s, which exceeds the
30-second bound the claim states (the code doubles any wait below 30 s, so 16
doubles to 32). -/
theorem reconnect_backoff_exceeds_30 :
    sleepsOf (run_with_reconnect (fun _ => failEnv) (fun _ => false) [] none
      serverCfg 6).1 = [1, 2, 4, 8, 16, 32] ∧
    ∃ s ∈ sleepsOf (run_with_reconnect (fun _ => failEnv) (fun _ => false) [] none
      serverCfg 6).1, 30 < s := by
  decide

/-- Claim C1 (amended): in server mode, for consecutive failed connection
attempts, the backoff sleep sequence starts at 1 s and doubles whenever the
current value is below 30 s, producing 1, 2, 4, 8, 16, 32, 32, 32, …
(the i-th sleep is `min (2 ^ i) 32`); within a single disconnect episode it is
monotonically non-decreasing and bounded above by 32 seconds. -/
theorem reconnect_backoff_sequence (envs : Nat → LaunchEnv) (quitAt : Nat → Bool)
    (script : List ServerEvent) (grid : Option GridSize) (cfg : CmdLineSettings)
    (fuel : Nat) (hq : ∀ k, quitAt k = false)
    (hf : ∀ k, isOkResult (launch (envs k) grid cfg).1 = false) :
    sleepsOf (run_with_reconnect envs quitAt script grid cfg fuel).1 =
      (List.range fuel).map (fun i => min (2 ^ i) 32) ∧
    (∀ i j : Nat, i ≤ j → min (2 ^ i) 32 ≤ min (2 ^ j) 32) ∧
    (∀ i : Nat, min (2 ^ i) 32 ≤ 32) := by
  refine ⟨?_, ?_, ?_⟩
  · rw [run_with_reconnect,
      reconnectGo_sleeps envs quitAt script grid cfg _ hq hf fuel 0 1]
    simp only [iterate_nextWait_one]
  · intro i j hij
    exact min_le_min (Nat.pow_le_pow_right (by norm_num) hij) le_rfl
  · intro i
    exact min_le_right _ _

/-- Witness for `reconnect_backoff_sequence` at a concrete failing environment
and fuel 3. -/
theorem reconnect_backoff_sequence_witness :
    sleepsOf (run_with_reconnect (fun _ => failEnv) (fun _ => false) [] none
      serverCfg 3).1 = (List.range 3).map (fun i => min (2 ^ i) 32) :=
  (reconnect_backoff_sequence (fun _ => failEnv) (fun _ => false) [] none serverCfg 3
    (fun _ => rfl) (fun _ => rfl)).1

/-- Claim C5: whenever quit has been requested at the shared running state, the
server-mode reconnect loop (at any iteration, with any current backoff)
terminates immediately: it returns the quit exit, attempts no further
connection and emits no further events. -/
theorem quit_stops_reconnect_loop (envs : Nat → LaunchEnv) (quitAt : Nat → Bool)
    (script : List ServerEvent) (grid : Option GridSize) (cfg : CmdLineSettings)
    (address : String) (fuel n wait : Nat) (hfuel : 0 < fuel)
    (h : quitAt n = true) :
    reconnectGo envs quitAt script grid cfg address fuel n wait =
      ([], ReconnectExit.quit) ∧
    (∀ inst, Action.sessionCreate inst ∉
      (reconnectGo envs quitAt script grid cfg address fuel n wait).1) ∧
    (∀ e, Action.sendEvent e ∉
      (reconnectGo envs quitAt script grid cfg address fuel n wait).1) := by
  obtain ⟨m, rfl⟩ : ∃ m, fuel = m + 1 := ⟨fuel - 1, by omega⟩
  refine ⟨?_, ?_, ?_⟩ <;> simp [reconnectGo, h]

/-- Witness for `quit_stops_reconnect_loop`: quit already requested at the
first iteration check. -/
theorem quit_stops_reconnect_loop_witness :
    reconnectGo (fun _ => failEnv) (fun _ => true) [] none serverCfg
      "127.0.0.1:6666" 1 0 1 = ([], ReconnectExit.quit) :=
  (quit_stops_reconnect_loop (fun _ => failEnv) (fun _ => true) [] none serverCfg
    "127.0.0.1:6666" 1 0 1 (by decide) rfl).1

/-- Claim C6: when the server at `127.0.0.1:6666` refuses the connection three
times and then accepts, the reconnect loop emits exactly the reconnect-event
sequence `ReconnectStart{wait:1}`, `ReconnectStart{wait:2}`,
`ReconnectStart{wait:4}`, `ReconnectStop` (each `ReconnectStart` carrying the
current, not yet doubled, backoff in seconds); `reconnectEvents` filters the
trace to exactly the `ReconnectStart`/`ReconnectStop` events. -/
theorem reconnect_scenario_events :
    reconnectEvents (run_with_reconnect scenarioEnvs (fun _ => false)
      [ServerEvent.ioClosed] none serverCfg 10).1 =
      [UserEvent.reconnectStart "127.0.0.1:6666" 1,
       UserEvent.reconnectStart "127.0.0.1:6666" 2,
       UserEvent.reconnectStart "127.0.0.1:6666" 4,
       UserEvent.reconnectStop] := by
  decide

/-- Claim C10: a newly constructed `RunningTracker` has `quit_requested` false
and exit code 0; the quitting flag is monotone — once set by any interleaving
of `request_quit`/`quit_with_code` calls from any clones it stays set, since no
operation resets it — and `quit_with_code` both stores the exit code and
requests quit. -/
theorem running_tracker_invariants :
    RunningTracker.new.quit_requested = false ∧
    RunningTracker.new.exit_code = 0 ∧
    (∀ (t : RunningTracker) (ops : List TrackerOp),
      t.quit_requested = true → (applyOps t ops).quit_requested = true) ∧
    (∀ (t : RunningTracker) (ops : List TrackerOp),
      ops ≠ [] → (applyOps t ops).quit_requested = true) ∧
    (∀ (t : RunningTracker) (code : Nat), code < 256 →
      (t.quit_with_code code).exit_code = code ∧
      (t.quit_with_code code).quit_requested = true) := by
  refine ⟨rfl, rfl, ?_, ?_, ?_⟩
  · intro t ops h
    exact applyOps_quitting_mono ops t h
  · intro t ops h
    exact applyOps_quitting_of_ne_nil t ops h
  · intro t code h
    refine ⟨?_, rfl⟩
    simp [RunningTracker.quit_with_code, RunningTracker.request_quit,
      Nat.mod_eq_of_lt h]

/-- Witness for `running_tracker_invariants` at concrete operations. -/
theorem running_tracker_invariants_witness :
    (applyOps RunningTracker.new [TrackerOp.requestQuit]).quit_requested = true ∧
    (RunningTracker.new.quit_with_code 7).exit_code = 7 :=
  ⟨running_tracker_invariants.2.2.2.1 RunningTracker.new [TrackerOp.requestQuit]
     (by decide),
   (running_tracker_invariants.2.2.2.2 RunningTracker.new 7 (by decide)).1⟩

end Neovide

namespace Neovide

/-- Claim C3: the version check issues at most 5 capability/version requests;
after every unacceptable attempt it sleeps 500 ms regardless of the outcome
(the trace is requests and 500 ms sleeps only); it returns the first response
whose version satisfies the lexicographic `(major, minor, patch) >= (0, 10, 0)`
comparison immediately, without waiting out the remaining attempts; and if all
5 attempts are exhausted without an acceptable version it returns the
incompatible-version error. -/
theorem version_check_retries (r : Nat → ApiResult) :
    ((check_neovim_version r).2.count Action.apiInfoRequest ≤ 5) ∧
    (∀ a ∈ (check_neovim_version r).2,
      a = Action.apiInfoRequest ∨ a = Action.sleepMs 500) ∧
    ((∀ k, k < 5 → acceptable (r k) = false) →
      check_neovim_version r = (.error versionErrorMessage, failCheckTrace 5)) ∧
    (∀ k, k < 5 → acceptable (r k) = true → (∀ j, j < k → acceptable (r j) = false) →
      ∃ info, r k = .ok info ∧ info.version.has_version 0 10 0 = true ∧
        check_neovim_version r =
          (.ok info, failCheckTrace k ++ [Action.apiInfoRequest])) := by
  refine ⟨checkAttempts_count 5 0 r, checkAttempts_mem 5 0 r, ?_, ?_⟩
  · intro h
    exact checkAttempts_all_fail 5 0 r (by simpa using h)
  · intro k hk hacc hbefore
    have := checkAttempts_first_ok k 5 0 r hk (by simpa using hacc)
      (fun j hj => by simpa using hbefore j hj)
    simpa using this

/-- Witness for `version_check_retries`: the third attempt reports 0.10.1 after
two call failures, so the check succeeds on attempt index 2 with two sleeps. -/
theorem version_check_retries_witness :
    ∃ info, (fun n => if n = 2 then (.ok ⟨1, ⟨0, 10, 1⟩⟩ : ApiResult) else .error ()) 2 =
        .ok info ∧
      info.version.has_version 0 10 0 = true ∧
      check_neovim_version
          (fun n => if n = 2 then (.ok ⟨1, ⟨0, 10, 1⟩⟩ : ApiResult) else .error ()) =
        (.ok info, failCheckTrace 2 ++ [Action.apiInfoRequest]) :=
  (version_check_retries
      (fun n => if n = 2 then (.ok ⟨1, ⟨0, 10, 1⟩⟩ : ApiResult) else .error ())).2.2.2
    2 (by decide) (by decide) (fun j hj => by interval_cases j <;> decide)

/-- Claim C7: when the session is created but no acceptable version arrives in
5 attempts, `launch` returns the incompatible-version error, whose message
contains the minimum required version `0.10.0`; no `ui_attach` call is ever
issued during that launch, and no session is returned to any caller. -/
theorem version_failure_aborts_launch (env : LaunchEnv) (grid : Option GridSize)
    (cfg : CmdLineSettings) (hs : env.sessionOk = true)
    (hf : ∀ k, k < 5 → acceptable (env.responses k) = false) :
    (launch env grid cfg).1 = .error versionErrorMessage ∧
    (∃ pre post, versionErrorMessage = pre ++ "0.10.0" ++ post) ∧
    (∀ a ∈ (launch env grid cfg).2, isUiAttach a = false) ∧
    (∀ s, (launch env grid cfg).1 ≠ .ok s) := by
  have hvc : check_neovim_version env.responses =
      (.error versionErrorMessage, failCheckTrace 5) :=
    checkAttempts_all_fail 5 0 env.responses (by simpa using hf)
  have hlaunch : launch env grid cfg =
      (.error versionErrorMessage,
       Action.sessionCreate (neovim_instance cfg) :: failCheckTrace 5) := by
    unfold launch
    simp [hs, hvc]
  refine ⟨by rw [hlaunch], ⟨"Neovide requires nvim version ", " or higher", rfl⟩, ?_, ?_⟩
  · rw [hlaunch]
    intro a ha
    rcases List.mem_cons.mp ha with rfl | ha
    · rfl
    · rcases failCheckTrace_mem 5 a ha with rfl | rfl <;> rfl
  · rw [hlaunch]
    intro s h
    exact Except.noConfusion h

/-- Witness for `version_failure_aborts_launch`: an environment reporting
version 0.9.9 on every attempt. -/
theorem version_failure_aborts_launch_witness :
    (launch badVersionEnv none embeddedCfg).1 = .error versionErrorMessage :=
  (version_failure_aborts_launch badVersionEnv none embeddedCfg rfl
    (fun _ _ => rfl)).1

/-- Claim C9: whenever `launch` reaches UI attach (session created, version
accepted, setup and settings sync succeeded), exactly one attach call is
issued; it carries the supplied grid size clamped to the minimum/maximum (the
default size when none was supplied) and the fixed options line-grid external
`true`, multi-grid external `!no_multi_grid`, RGB `true`; attach failure makes
`launch` return an error, attach success returns the session. -/
theorem ui_attach_call (env : LaunchEnv) (grid : Option GridSize)
    (cfg : CmdLineSettings) (info : ApiInformation) (hs : env.sessionOk = true)
    (hvc : (check_neovim_version env.responses).1 = Except.ok info)
    (hsetup : env.setupOk = true) (hsync : env.settingsReadOk = true) :
    ((launch env grid cfg).2.countP isUiAttach = 1) ∧
    (Action.uiAttach (grid.elim DEFAULT_GRID_SIZE clamped_grid_size).width
        (grid.elim DEFAULT_GRID_SIZE clamped_grid_size).height
        true (!cfg.no_multi_grid) true ∈ (launch env grid cfg).2) ∧
    (∀ v, grid = some v →
      MIN_GRID_SIZE.width ≤ (clamped_grid_size v).width ∧
      (clamped_grid_size v).width ≤ MAX_GRID_SIZE.width ∧
      MIN_GRID_SIZE.height ≤ (clamped_grid_size v).height ∧
      (clamped_grid_size v).height ≤ MAX_GRID_SIZE.height) ∧
    (grid = none → grid.elim DEFAULT_GRID_SIZE clamped_grid_size = DEFAULT_GRID_SIZE) ∧
    (env.attachOk = true →
      (launch env grid cfg).1 = .ok ⟨cfg.server.isNone, env.stderrTask⟩) ∧
    (env.attachOk = false →
      (launch env grid cfg).1 = .error "Could not attach ui to neovim process") := by
  have h2 : launch env grid cfg =
      ((if env.attachOk then .ok ⟨cfg.server.isNone, env.stderrTask⟩
        else .error "Could not attach ui to neovim process"),
       Action.sessionCreate (neovim_instance cfg) ::
         (check_neovim_version env.responses).2 ++
         [Action.setupState (cfg.wsl || cfg.server.isSome)] ++
         [Action.readInitialValues] ++
         [Action.uiAttach (grid.elim DEFAULT_GRID_SIZE clamped_grid_size).width
            (grid.elim DEFAULT_GRID_SIZE clamped_grid_size).height
            true (!cfg.no_multi_grid) true]) := by
    unfold launch
    by_cases ha : env.attachOk <;> simp [hs, hvc, hsetup, hsync, ha]
  have hz : (check_neovim_version env.responses).2.countP isUiAttach = 0 := by
    rw [List.countP_eq_zero]
    intro a ha
    rcases checkAttempts_mem 5 0 env.responses a ha with rfl | rfl <;> simp [isUiAttach]
  refine ⟨?_, ?_, ?_, ?_, ?_, ?_⟩
  · rw [h2]
    simp [List.countP_cons, List.countP_append, isUiAttach, hz]
  · rw [h2]
    simp
  · intro v _
    simp only [clamped_grid_size, MIN_GRID_SIZE, MAX_GRID_SIZE]
    refine ⟨?_, ?_, ?_, ?_⟩ <;> omega
  · intro h
    rw [h]
    rfl
  · intro ha
    rw [h2]
    simp [ha]
  · intro ha
    rw [h2]
    simp [ha]

/-- Witness for `ui_attach_call`: a fully successful environment with an
explicit undersized grid request, which is clamped up to the minimum. -/
theorem ui_attach_call_witness :
    (launch goodEnv (some ⟨5, 2000⟩) serverCfg).2.countP isUiAttach = 1 ∧
    Action.uiAttach 20 1000 true true true ∈ (launch goodEnv (some ⟨5, 2000⟩) serverCfg).2 :=
  ⟨(ui_attach_call goodEnv (some ⟨5, 2000⟩) serverCfg ⟨1, ⟨0, 10, 0⟩⟩ rfl rfl rfl rfl).1,
   (ui_attach_call goodEnv (some ⟨5, 2000⟩) serverCfg ⟨1, ⟨0, 10, 0⟩⟩ rfl rfl rfl rfl).2.1⟩

end Neovide

namespace Neovide

theorem runServerLoop_ping (script : List ServerEvent) :
    ∀ ms, Action.pingRequest ms ∈ (runServerLoop script).1 → ms = 2000 := by
  induction script with
  | nil => intro ms h; simp [runServerLoop] at h
  | cons e rest ih =>
    intro ms h
    cases e with
    | ioClosed => simp [runServerLoop] at h
    | pingOk =>
      simp [runServerLoop] at h
      rcases h with rfl | h
      · rfl
      · exact ih ms h
    | pingTimeout =>
      simp [runServerLoop] at h
      rcases h with rfl | h
      · rfl
      · exact ih ms h

theorem runServerLoop_no_send (script : List ServerEvent) :
    ∀ e, Action.sendEvent e ∉ (runServerLoop script).1 := by
  induction script with
  | nil => intro e h; simp [runServerLoop] at h
  | cons ev rest ih =>
    intro e h
    cases ev with
    | ioClosed => simp [runServerLoop] at h
    | pingOk =>
      simp [runServerLoop] at h
      exact ih e h
    | pingTimeout =>
      simp [runServerLoop] at h
      exact ih e h

theorem runServerLoop_abort (script : List ServerEvent) :
    (ServerEvent.pingTimeout ∈
        script.takeWhile (fun e => decide (e ≠ ServerEvent.ioClosed)) →
      Action.abortIoTask ∈ (runServerLoop script).1) ∧
    (Action.abortIoTask ∈ (runServerLoop script).1 →
      ServerEvent.pingTimeout ∈ script) := by
  induction script with
  | nil => constructor <;> intro h <;> simp [runServerLoop, List.takeWhile] at h
  | cons ev rest ih =>
    cases ev with
    | ioClosed =>
      constructor <;> intro h <;> simp [runServerLoop, List.takeWhile] at h
    | pingOk =>
      constructor <;> intro h
      · simp [List.takeWhile] at h
        simp [runServerLoop]
        exact ih.1 (by simpa using h)
      · simp [runServerLoop] at h
        exact List.mem_cons_of_mem _ (ih.2 h)
    | pingTimeout =>
      constructor <;> intro h
      · simp [runServerLoop]
      · exact List.mem_cons_self _ _

theorem runServerLoop_break (script : List ServerEvent) :
    (runServerLoop script).2 = true ↔ ServerEvent.ioClosed ∈ script := by
  induction script with
  | nil => simp [runServerLoop]
  | cons ev rest ih =>
    cases ev with
    | ioClosed => simp [runServerLoop]
    | pingOk => simpa [runServerLoop] using ih
    | pingTimeout => simpa [runServerLoop] using ih

theorem run_server_trace (script : List ServerEvent) (session : Session) :
    (run_server script session).1 = (runServerLoop script).1 ∨
    (run_server script session).1 = (runServerLoop script).1 ++
      ((if session.hasStderrTask then [Action.stderrWaitMs 500] else []) ++
       [Action.clearCurrentNvim, Action.sendEvent UserEvent.neovimExited]) := by
  unfold run_server
  cases hb : (runServerLoop script).2
  · left; simp [hb]
  · right; simp [hb]

theorem run_server_exited_count (script : List ServerEvent) (session : Session) :
    (run_server script session).1.count (Action.sendEvent UserEvent.neovimExited) =
      if ServerEvent.ioClosed ∈ script then 1 else 0 := by
  have h1 : (runServerLoop script).1.count (Action.sendEvent UserEvent.neovimExited) = 0 :=
    List.count_eq_zero.mpr (runServerLoop_no_send script _)
  have h2 : (if session.hasStderrTask then [Action.stderrWaitMs 500]
      else []).count (Action.sendEvent UserEvent.neovimExited) = 0 := by
    cases hst : session.hasStderrTask <;> simp
  unfold run_server
  cases hb : (runServerLoop script).2
  · have hmem : ServerEvent.ioClosed ∉ script := by
      intro hmem
      rw [(runServerLoop_break script).mpr hmem] at hb
      exact Bool.noConfusion hb
    simp [hb, hmem, h1]
  · have hmem : ServerEvent.ioClosed ∈ script := (runServerLoop_break script).mp hb
    simp [hb, hmem, List.count_append, h1, h2, List.count_cons]

end Neovide

namespace Neovide

/-- Claim C4: in the server-mode liveness sub-loop, every liveness ping is
bounded by a 2-second timeout; a ping that times out (before the transport
closes) causes the read-loop task to be forcibly aborted, and an abort happens
only on a ping timeout — it is the only path that actively terminates an
otherwise-open transport; and once the loop observes the transport closed
(which an abort itself brings about) exactly one `NeovimExited` event is
emitted, and none before. -/
theorem ping_timeout_teardown (script : List ServerEvent) (session : Session) :
    (∀ ms, Action.pingRequest ms ∈ (run_server script session).1 → ms = 2000) ∧
    (ServerEvent.pingTimeout ∈
        script.takeWhile (fun e => decide (e ≠ ServerEvent.ioClosed)) →
      Action.abortIoTask ∈ (run_server script session).1) ∧
    (Action.abortIoTask ∈ (run_server script session).1 →
      ServerEvent.pingTimeout ∈ script) ∧
    (ServerEvent.ioClosed ∈ script →
      (run_server script session).1.count
        (Action.sendEvent UserEvent.neovimExited) = 1) ∧
    (ServerEvent.ioClosed ∉ script →
      (run_server script session).1.count
        (Action.sendEvent UserEvent.neovimExited) = 0) := by
  refine ⟨?_, ?_, ?_, ?_, ?_⟩
  · intro ms h
    rcases run_server_trace script session with heq | heq <;> rw [heq] at h
    · exact runServerLoop_ping script ms h
    · rcases List.mem_append.mp h with h | h
      · exact runServerLoop_ping script ms h
      · cases hst : session.hasStderrTask <;> simp [hst] at h
  · intro h
    rcases run_server_trace script session with heq | heq <;> rw [heq]
    · exact (runServerLoop_abort script).1 h
    · exact List.mem_append_left _ ((runServerLoop_abort script).1 h)
  · intro h
    rcases run_server_trace script session with heq | heq <;> rw [heq] at h
    · exact (runServerLoop_abort script).2 h
    · rcases List.mem_append.mp h with h | h
      · exact (runServerLoop_abort script).2 h
      · cases hst : session.hasStderrTask <;> simp [hst] at h
  · intro h
    rw [run_server_exited_count]
    simp [h]
  · intro h
    rw [run_server_exited_count]
    simp [h]

/-- Witness for `ping_timeout_teardown`: a healthy ping, then a timed-out ping
that aborts the IO task, then the (aborted) transport reports closed. -/
theorem ping_timeout_teardown_witness :
    Action.abortIoTask ∈
      (run_server [ServerEvent.pingOk, ServerEvent.pingTimeout, ServerEvent.ioClosed]
        ⟨false, false⟩).1 ∧
    (run_server [ServerEvent.pingOk, ServerEvent.pingTimeout, ServerEvent.ioClosed]
        ⟨false, false⟩).1.count (Action.sendEvent UserEvent.neovimExited) = 1 :=
  ⟨(ping_timeout_teardown [ServerEvent.pingOk, ServerEvent.pingTimeout,
      ServerEvent.ioClosed] ⟨false, false⟩).2.1 (by decide),
   (ping_timeout_teardown [ServerEvent.pingOk, ServerEvent.pingTimeout,
      ServerEvent.ioClosed] ⟨false, false⟩).2.2.2.1 (by decide)⟩

end Neovide

namespace Neovide

theorem launch_mem_sessionCreate (env : LaunchEnv) (grid : Option GridSize)
    (cfg : CmdLineSettings) :
    Action.sessionCreate (neovim_instance cfg) ∈ (launch env grid cfg).2 := by
  unfold launch
  by_cases hs : env.sessionOk
  · cases hvc : (check_neovim_version env.responses).1 <;>
      by_cases h1 : env.setupOk <;> by_cases h2 : env.settingsReadOk <;>
      by_cases h3 : env.attachOk <;> simp [hs, hvc, h1, h2, h3]
  · simp [hs]

/-- Claim C8: in embedded (run-once) mode, after either terminal condition —
transport closed, or process exit followed by the bounded wait for the
transport — the supervisor waits for the stderr-relay task (if one exists)
with a 500 ms bound and proceeds regardless of the outcome, clears the
process-wide current-connection reference immediately before emitting
`NeovimExited` exactly once, never attempts a connection again, and every
bounded wait on this path (IO drain and stderr drain alike) uses the 500 ms
bound. -/
theorem embedded_run_shutdown (session : Session) (t : EmbeddedTerminal) :
    (run session t).count (Action.sendEvent UserEvent.neovimExited) = 1 ∧
    (∃ pre, run session t =
        pre ++ [Action.clearCurrentNvim, Action.sendEvent UserEvent.neovimExited] ∧
      ∀ a ∈ pre, a = Action.ioWaitMs 500 ∨ a = Action.stderrWaitMs 500) ∧
    (session.hasStderrTask = true → Action.stderrWaitMs 500 ∈ run session t) ∧
    (∀ ms, Action.stderrWaitMs ms ∈ run session t → ms = 500) ∧
    (∀ ms, Action.ioWaitMs ms ∈ run session t → ms = 500) ∧
    (∀ inst, Action.sessionCreate inst ∉ run session t) ∧
    (session.hasProcess = true → ∀ b, t = EmbeddedTerminal.processExited b →
      Action.ioWaitMs 500 ∈ run session t) := by
  obtain ⟨hp, hst⟩ := session
  refine ⟨?_, ?_, ?_, ?_, ?_, ?_, ?_⟩
  · cases hp <;> cases hst <;> cases t <;> simp [run, List.count_cons, List.count_append]
  · cases hp <;> cases hst <;> cases t <;>
      first
      | exact ⟨[], rfl, by decide⟩
      | exact ⟨[Action.ioWaitMs 500], rfl, by decide⟩
      | exact ⟨[Action.stderrWaitMs 500], rfl, by decide⟩
      | exact ⟨[Action.ioWaitMs 500, Action.stderrWaitMs 500], rfl, by decide⟩
  · intro h
    have h' : hst = true := h
    subst h'
    cases hp <;> cases t <;> simp [run]
  · intro ms h
    cases hp <;> cases hst <;> cases t <;> simp [run] at h <;> omega
  · intro ms h
    cases hp <;> cases hst <;> cases t <;> simp [run] at h <;> omega
  · intro inst h
    cases hp <;> cases hst <;> cases t <;> simp [run] at h
  · intro hp' b ht
    subst ht
    have h' : hp = true := hp'
    subst h'
    cases hst <;> simp [run]

/-- Witness for `embedded_run_shutdown`: embedded session with process handle
and stderr task, where the process exits before the stream closes. -/
theorem embedded_run_shutdown_witness :
    (run ⟨true, true⟩ (EmbeddedTerminal.processExited false)).count
      (Action.sendEvent UserEvent.neovimExited) = 1 ∧
    Action.stderrWaitMs 500 ∈ run ⟨true, true⟩ (EmbeddedTerminal.processExited false) ∧
    Action.ioWaitMs 500 ∈ run ⟨true, true⟩ (EmbeddedTerminal.processExited false) :=
  ⟨(embedded_run_shutdown ⟨true, true⟩ (EmbeddedTerminal.processExited false)).1,
   (embedded_run_shutdown ⟨true, true⟩ (EmbeddedTerminal.processExited false)).2.2.1 rfl,
   (embedded_run_shutdown ⟨true, true⟩ (EmbeddedTerminal.processExited false)).2.2.2.2.2.2
     rfl false rfl⟩

/-- Claim C2, counterexample: with a server address configured
(`serverCfg`) and an environment in which the first connection attempt fails
(`failEnv`), `NeovimRuntime::launch` still returns `Ok` and performs no inline
action at all — the first connection attempt is not awaited inline and its
failure is not returned as an `Err`, contrary to the claim's "for every
configuration". -/
theorem runtime_launch_server_not_inline :
    isOkResult (NeovimRuntime.launch failEnv none serverCfg).result = true ∧
    (NeovimRuntime.launch failEnv none serverCfg).inlineActions = [] ∧
    (NeovimRuntime.launch failEnv none serverCfg).background =
      some BackgroundTask.reconnectLoop ∧
    isOkResult (launch failEnv none serverCfg).1 = false := by
  refine ⟨rfl, rfl, rfl, rfl⟩

/-- Claim C2 (amended): in embedded mode (no server configured) the
synchronous entry point performs the first connection attempt inline — its
trace is exactly the inline `launch` trace, containing the session-creation
attempt — and an immediate failure is returned as an `Err` to the caller,
with only ongoing supervision detached; in server mode the whole reconnect
loop, including the first connection attempt, is detached into the background
and the entry point returns `Ok` immediately with no inline action. -/
theorem runtime_launch_modes (env : LaunchEnv) (grid : Option GridSize)
    (cfg : CmdLineSettings) :
    (cfg.server = none →
      (NeovimRuntime.launch env grid cfg).inlineActions = (launch env grid cfg).2 ∧
      Action.sessionCreate Instance.embedded ∈
        (NeovimRuntime.launch env grid cfg).inlineActions ∧
      (∀ msg, (launch env grid cfg).1 = .error msg →
        (NeovimRuntime.launch env grid cfg).result = .error msg ∧
        (NeovimRuntime.launch env grid cfg).background = none) ∧
      (∀ s, (launch env grid cfg).1 = .ok s →
        (NeovimRuntime.launch env grid cfg).result = .ok () ∧
        (NeovimRuntime.launch env grid cfg).background =
          some (BackgroundTask.runOnce s))) ∧
    (∀ addr, cfg.server = some addr →
      (NeovimRuntime.launch env grid cfg).result = .ok () ∧
      (NeovimRuntime.launch env grid cfg).inlineActions = [] ∧
      (NeovimRuntime.launch env grid cfg).background =
        some BackgroundTask.reconnectLoop) := by
  constructor
  · intro hnone
    have hiss : cfg.server.isSome = false := by simp [hnone]
    have hinst : neovim_instance cfg = Instance.embedded := by
      simp [neovim_instance, hnone]
    refine ⟨?_, ?_, ?_, ?_⟩
    · unfold NeovimRuntime.launch
      cases hl : (launch env grid cfg).1 <;> simp [hiss, hl]
    · have hmem := launch_mem_sessionCreate env grid cfg
      rw [hinst] at hmem
      unfold NeovimRuntime.launch
      cases hl : (launch env grid cfg).1 <;> simp [hiss, hl] <;> exact hmem
    · intro msg hmsg
      unfold NeovimRuntime.launch
      simp [hiss, hmsg]
    · intro s hs
      unfold NeovimRuntime.launch
      simp [hiss, hs]
  · intro addr haddr
    have hiss : cfg.server.isSome = true := by simp [haddr]
    unfold NeovimRuntime.launch
    simp [hiss]

/-- Witness for `runtime_launch_modes`: embedded mode propagates the inline
spawn failure, server mode returns `Ok` immediately. -/
theorem runtime_launch_modes_witness :
    (NeovimRuntime.launch failEnv none embeddedCfg).result =
      .error "Could not locate or start neovim process" ∧
    (NeovimRuntime.launch failEnv none serverCfg).result = .ok () :=
  ⟨(((runtime_launch_modes failEnv none embeddedCfg).1 rfl).2.2.1
      "Could not locate or start neovim process" rfl).1,
   ((runtime_launch_modes failEnv none serverCfg).2 "127.0.0.1:6666" rfl).1⟩

end Neovide
